import Mathlib

/-!
Verification of the changelog persistence and aggregation layer.

This file gives a shallow embedding of the SQLite-backed storage layer
(`cli/storage.py`, class `ChangelogStorage`), the markdown renderer
(`cli/changelog_generator.py`, `ChangelogGenerator.format_as_markdown`) and the
LLM-response fallback parsing shared by `cli/anthropic_client.py` and
`cli/ollama_client.py` (`generate_changelog_entry`), together with theorems
settling the specification claims about them.

Modelling conventions:
* The SQLite database is a record of tables, each table a list of rows in
  insertion (rowid) order.  `SELECT ... fetchone` is `List.find?`,
  `DELETE ... WHERE` is `List.filter` with the negated predicate,
  `UPDATE ... WHERE` is `List.map` with a conditional row update, and
  `INSERT` appends.
* `uuid.uuid4()` and `datetime.now()` are nondeterministic inputs of the
  Python code; they are passed to each operation as explicit arguments
  (`newId`, `now`, or an id generator `Nat -> String`).
* Python `json.dumps` / `json.loads` on label lists is an external library;
  it is modelled by an abstract `LabelsCodec`, where `loads` returning `none`
  models `json.JSONDecodeError`.
* Python exceptions (`ValueError`) become an error component in the result;
  operations that raise before committing return the database unchanged,
  exactly as the Python code closes the connection without committing.
* Python truthiness tests (`if pr_number:`, `if entry.get("labels"):`,
  `if not release_date:`) are translated as the corresponding
  none-or-zero-or-empty tests.
-/

/-- Input payload of a changelog entry, as the Python dicts passed to the
storage layer and the renderer; `none` models an absent key or `None`
(`entry.get(...)`). -/
structure EntryData where
  pr_number : Option Int := none
  pr_url : Option String := none
  author : Option String := none
  date : Option String := none
  summary : Option String := none
  details : Option String := none
  type : Option String := none
  labels : Option (List String) := none
deriving Repr, DecidableEq

/-- A row of the `changelog_entries` table; `labels` is the serialized TEXT
column. -/
structure EntryRow where
  id : String
  repo_id : String
  pr_number : Option Int
  pr_url : Option String
  author : Option String
  date : Option String
  summary : Option String
  details : Option String
  type : Option String
  labels : Option String
deriving Repr, DecidableEq

/-- A row of the `repositories` table. -/
structure RepoRow where
  id : String
  name : String
  url : Option String
  current_version : Option String
  last_updated : String
deriving Repr, DecidableEq

/-- A row of the `versions` table (`is_breaking` stored as 0 or 1, as the
Python code inserts `1 if is_breaking else 0`). -/
structure VersionRow where
  id : String
  repo_id : String
  version : String
  release_date : Option String
  description : Option String
  is_breaking : Nat
deriving Repr, DecidableEq

/-- A row of the `version_entries` join table. -/
structure VersionEntryRow where
  version_id : String
  entry_id : String
deriving Repr, DecidableEq

/-- The database state: the tables touched by the claims, each as a list of
rows in insertion order. -/
structure DB where
  repositories : List RepoRow := []
  changelog_entries : List EntryRow := []
  versions : List VersionRow := []
  version_entries : List VersionEntryRow := []
deriving Repr, DecidableEq

/-- Abstract model of `json.dumps` / `json.loads` restricted to the label
lists this code stores; `loads s = none` models `json.JSONDecodeError`. -/
structure LabelsCodec where
  dumps : List String → String
  loads : String → Option (List String)

/-- The two `ValueError` raise sites of the storage layer, tagged as the
specification taxonomy names them. -/
inductive StorageError where
  | notFound
  | duplicate
deriving Repr, DecidableEq

/-- A changelog entry as returned by the read operations: the `labels` column
has been deserialized back to a list. -/
structure ReadEntry where
  id : String
  repo_id : String
  pr_number : Option Int
  pr_url : Option String
  author : Option String
  date : Option String
  summary : Option String
  details : Option String
  type : Option String
  labels : List String
deriving Repr, DecidableEq

/-- The dictionary returned by `get_changelog`. -/
structure Changelog where
  repo : String
  generated_at : String
  changes : List ReadEntry
deriving Repr, DecidableEq

/-- `SELECT id FROM repositories WHERE id = ?` followed by `fetchone`. -/
def getRepo (db : DB) (repo_id : String) : Option RepoRow :=
  db.repositories.find? (fun r => r.id == repo_id)

/-- `UPDATE repositories SET last_updated = ? WHERE id = ?`. -/
def touchRepo (db : DB) (now : String) (repo_id : String) : DB :=
  { db with
    repositories := db.repositories.map fun r =>
      if r.id == repo_id then { r with last_updated := now } else r }

/-- `json.dumps(entry.get("labels", [])) if entry.get("labels") else None`:
an absent or empty label list is stored as NULL. -/
def dumpLabels (codec : LabelsCodec) (labels : Option (List String)) : Option String :=
  match labels with
  | some l => if l = [] then none else some (codec.dumps l)
  | none => none

/-- The `changelog_entries` row built from an entry payload, as the INSERT
statements of `save_changelog` and `add_changelog_entry` build it. -/
def rowOfEntry (codec : LabelsCodec) (id repo_id : String) (e : EntryData) : EntryRow :=
  { id := id
    repo_id := repo_id
    pr_number := e.pr_number
    pr_url := e.pr_url
    author := e.author
    date := e.date
    summary := e.summary
    details := e.details
    type := e.type
    labels := dumpLabels codec e.labels }

/-- The lenient label read done by `get_changelog` and `get_changelog_entry`:
a NULL or empty column gives `[]`, and a deserialization failure
(`json.JSONDecodeError`) is swallowed into `[]` as well. -/
def readLabels (codec : LabelsCodec) (labels : Option String) : List String :=
  match labels with
  | some s => if s = "" then [] else (codec.loads s).getD []
  | none => []

/-- One stored row converted to the dictionary shape the read operations
return. -/
def readEntry (codec : LabelsCodec) (r : EntryRow) : ReadEntry :=
  { id := r.id
    repo_id := r.repo_id
    pr_number := r.pr_number
    pr_url := r.pr_url
    author := r.author
    date := r.date
    summary := r.summary
    details := r.details
    type := r.type
    labels := readLabels codec r.labels }

/-- Insertion step of insertion sort with a Boolean comparator: `x` goes in
front of the first element `y` with `r x y`. -/
def insertWith (r : α → α → Bool) (x : α) : List α → List α
  | [] => [x]
  | y :: ys => if r x y then x :: y :: ys else y :: insertWith r x ys

/-- Insertion sort with a Boolean comparator; models deterministic engine
ordering (`ORDER BY`, Python `sorted`). -/
def sortWith (r : α → α → Bool) : List α → List α
  | [] => []
  | x :: xs => insertWith r x (sortWith r xs)

/-- SQLite comparison on a nullable TEXT column: NULL is smaller than any
value. -/
def optLe (a b : Option String) : Bool :=
  match a, b with
  | none, _ => true
  | some _, none => false
  | some s, some t => s ≤ t

/-- `ORDER BY date DESC` on the `changelog_entries` table (larger dates
first, NULLs last). -/
def sortRowsByDateDesc (l : List EntryRow) : List EntryRow :=
  sortWith (fun a b => optLe b.date a.date) l

/-- `ChangelogStorage.get_changelog` (storage.py, lines 201-248): `None` when
the repository row is absent; otherwise the repository id, a generation
timestamp, and the entries of the repository ordered by `date` descending,
each with its labels leniently deserialized. -/
def get_changelog (codec : LabelsCodec) (db : DB) (now : String) (repo_id : String) :
    Option Changelog :=
  match getRepo db repo_id with
  | none => none
  | some _ =>
    some
      { repo := repo_id
        generated_at := now
        changes :=
          (sortRowsByDateDesc (db.changelog_entries.filter fun r => r.repo_id == repo_id)).map
            (readEntry codec) }

/-- `ChangelogStorage.get_changelog_entry` (storage.py, lines 644-680): point
lookup by `(repo_id, pr_number)`, labels leniently deserialized. -/
def get_changelog_entry (codec : LabelsCodec) (db : DB) (repo_id : String) (pr_number : Int) :
    Option ReadEntry :=
  (db.changelog_entries.find? fun r =>
      r.repo_id == repo_id && r.pr_number == some pr_number).map (readEntry codec)

/-- `ChangelogStorage.add_changelog_entry` (storage.py, lines 250-343).
Raises (`.error .notFound`, db unchanged) when the repository is absent;
otherwise stamps `last_updated`, and when `entry["pr_number"]` is truthy
(non-null and nonzero) and a row for `(repo_id, pr_number)` exists, updates
that row in place (all fields except `pr_number`) returning its id, else
inserts a new row under the supplied fresh id.  The `date` argument is
accepted and ignored, as in the source (rows store `entry.get("date")`). -/
def add_changelog_entry (codec : LabelsCodec) (db : DB) (now newId : String)
    (repo_id : String) (date : String) (entry : EntryData) :
    DB × Except StorageError String :=
  match getRepo db repo_id with
  | none => (db, .error .notFound)
  | some _ =>
    let db1 := touchRepo db now repo_id
    let existing_id : Option String :=
      match entry.pr_number with
      | some n =>
        if n ≠ 0 then
          (db1.changelog_entries.find? fun r =>
              r.repo_id == repo_id && r.pr_number == some n).map (fun r => r.id)
        else none
      | none => none
    let labels_json := dumpLabels codec entry.labels
    match existing_id with
    | some eid =>
      ({ db1 with
          changelog_entries := db1.changelog_entries.map fun r =>
            if r.id == eid then
              { r with
                pr_url := entry.pr_url
                author := entry.author
                date := entry.date
                summary := entry.summary
                details := entry.details
                type := entry.type
                labels := labels_json }
            else r },
        .ok eid)
    | none =>
      ({ db1 with
          changelog_entries :=
            db1.changelog_entries ++ [rowOfEntry codec newId repo_id entry] },
        .ok newId)

/-- `ChangelogStorage.save_changelog` (storage.py, lines 149-199): stamps
`last_updated` (a no-op when the repository row is absent), deletes every
entry of the repository, and inserts the given changes unconditionally, each
under a fresh generated id; no validation, no error path. -/
def save_changelog (codec : LabelsCodec) (db : DB) (now : String) (fresh : Nat → String)
    (repo_id : String) (changes : List EntryData) : DB :=
  let db1 := touchRepo db now repo_id
  { db1 with
    changelog_entries :=
      db1.changelog_entries.filter (fun r => !(r.repo_id == repo_id)) ++
        changes.enum.map fun p => rowOfEntry codec (fresh p.1) repo_id p.2 }

/-- `ChangelogStorage.delete_repository` (storage.py, lines 400-429): deletes
the version_entries rows of the repository versions, the versions, the
changelog entries, and the repository row; never raises. -/
def delete_repository (db : DB) (repo_id : String) : DB :=
  { repositories := db.repositories.filter fun r => !(r.id == repo_id)
    changelog_entries := db.changelog_entries.filter fun r => !(r.repo_id == repo_id)
    versions := db.versions.filter fun v => !(v.repo_id == repo_id)
    version_entries := db.version_entries.filter fun ve =>
      !(db.versions.any fun v => v.repo_id == repo_id && v.id == ve.version_id) }

/-- `if not release_date: release_date = datetime.now().isoformat()` — the
release date defaults to now when falsy (absent or empty). -/
def defaultReleaseDate (now : String) (release_date : Option String) : String :=
  match release_date with
  | none => now
  | some s => if s = "" then now else s

/-- The `versions` row inserted by `add_version`. -/
def versionRowOf (version_id repo_id version : String) (release_date : String)
    (description : Option String) (is_breaking : Bool) : VersionRow :=
  { id := version_id
    repo_id := repo_id
    version := version
    release_date := some release_date
    description := description
    is_breaking := if is_breaking then 1 else 0 }

/-- `ChangelogStorage.add_version` (storage.py, lines 431-501): raises
(`.notFound`, db unchanged) when the repository is absent, (`.duplicate`, db
unchanged) when `(repo_id, version)` already exists; otherwise inserts the
version row and updates the repository row to `current_version = version`,
returning the fresh version id. -/
def add_version (db : DB) (now version_id : String) (repo_id version : String)
    (release_date : Option String) (description : Option String) (is_breaking : Bool) :
    DB × Except StorageError String :=
  match getRepo db repo_id with
  | none => (db, .error .notFound)
  | some _ =>
    match db.versions.find? (fun v => v.repo_id == repo_id && v.version == version) with
    | some _ => (db, .error .duplicate)
    | none =>
      ({ db with
          versions := db.versions ++
            [versionRowOf version_id repo_id version
              (defaultReleaseDate now release_date) description is_breaking]
          repositories := db.repositories.map fun r =>
            if r.id == repo_id then
              { r with current_version := some version, last_updated := now }
            else r },
        .ok version_id)

/-- Result record of the LLM entry generation (`summary`, `details`, `type`
string fields). -/
structure GenEntry where
  summary : String
  details : String
  type : String
deriving Repr, DecidableEq

/-- The character written `{` (Python `response.find`). -/
def jsonOpen : Char := '\x7b'

/-- The character written `}` (Python `response.rfind`). -/
def jsonClose : Char := '\x7d'

/-- Python `str.find`: lowest character index of `c`, or `-1`. -/
def pyFind (s : String) (c : Char) : Int :=
  match s.toList.findIdx? (fun x => x == c) with
  | some i => (i : Int)
  | none => -1

/-- Python `str.rfind`: highest character index of `c`, or `-1`. -/
def pyRFind (s : String) (c : Char) : Int :=
  match s.toList.reverse.findIdx? (fun x => x == c) with
  | some i => (s.toList.length : Int) - 1 - (i : Int)
  | none => -1

/-- Python slice `s[a:b]` for the nonnegative indices used here. -/
def pySlice (s : String) (a b : Int) : String :=
  String.mk ((s.toList.drop a.toNat).take (b - a).toNat)

/-- The guard `json_start >= 0 and json_end > json_start` of
`generate_changelog_entry`, with `json_start = response.find("{")` and
`json_end = response.rfind("}") + 1`. -/
def hasJsonCandidate (response : String) : Bool :=
  decide (0 ≤ pyFind response jsonOpen) &&
    decide (pyFind response jsonOpen < pyRFind response jsonClose + 1)

/-- The substring `response[json_start:json_end]` handed to `json.loads`. -/
def jsonCandidate (response : String) : String :=
  pySlice response (pyFind response jsonOpen) (pyRFind response jsonClose + 1)

/-- Response handling of `AnthropicClient.generate_changelog_entry`
(anthropic_client.py, lines 97-121) and the identical
`OllamaClient.generate_changelog_entry` (ollama_client.py, lines 67-91),
after the HTTP call returned `response`.  `tryParse` models `json.loads` on
the extracted substring coerced to the returned record; `none` models
`json.JSONDecodeError`.  Python `.strip()` is `String.trim`,
`response[:100]` is `take 100`, `response[100:350]` is `drop 100 |> take
250`. -/
def generate_changelog_entry (tryParse : String → Option GenEntry) (response : String) :
    GenEntry :=
  if hasJsonCandidate response then
    match tryParse (jsonCandidate response) with
    | some result => result
    | none =>
      { summary := (response.take 100).trim
        details := if 100 < response.length then ((response.drop 100).take 250).trim else ""
        type := "other" }
  else
    { summary := (response.take 100).trim
      details := ""
      type := "other" }

/-- Python `str.capitalize`: first character uppercased, the rest
lowercased. -/
def pyCapitalize (s : String) : String :=
  match s.toList with
  | [] => ""
  | c :: rest => String.mk (c.toUpper :: rest.map Char.toLower)

/-- The level-3 heading for a change type (changelog_generator.py, lines
151-159). -/
def typeHeader (t : String) : String :=
  if t == "bugfix" then "Bug Fixes"
  else if t == "feature" then "New Features"
  else if t == "improvement" then "Improvements"
  else pyCapitalize t

/-- `change.get("date", "").split("T")[0]`: the calendar-date part of the
entry timestamp. -/
def dateKey (e : EntryData) : String :=
  ((e.date.getD "").splitOn "T").headD ""

/-- `change.get("type", "other")`. -/
def typeKey (e : EntryData) : String :=
  e.type.getD "other"

/-- Grouping into a Python insertion-ordered dict of lists
(`changes_by_date` / `changes_by_type`): one group per key in order of first
appearance, each group holding its elements in incoming order. -/
def groupByKey (key : α → String) : List α → List (String × List α)
  | [] => []
  | x :: xs =>
    (key x, x :: xs.filter fun y => key y == key x) ::
      groupByKey key (xs.filter fun y => !(key y == key x))
termination_by l => l.length
decreasing_by
  simp only [List.length_cons]
  exact Nat.lt_succ_of_le (List.length_filter_le _ _)

/-- The grouping pipeline of `format_as_markdown` (changelog_generator.py,
lines 119-151): partition by calendar date, sort the date groups by key in
reverse order (`sorted(..., reverse=True)`), then partition each date group
by type. -/
def groupChanges (changes : List EntryData) :
    List (String × List (String × List EntryData)) :=
  (sortWith (fun a b => decide (b.1 ≤ a.1)) (groupByKey dateKey changes)).map
    fun g => (g.1, groupByKey typeKey g.2)

/-- Python string interpolation of a possibly missing value (`f"{None}"` is
the text `None`). -/
def optStr (o : Option String) : String :=
  match o with
  | some s => s
  | none => "None"

/-- One bullet of the rendered markdown (changelog_generator.py, lines
164-175): the summary, a PR reference when `pr_number` is truthy, an
indented detail line when `details` is truthy, and a closing newline. -/
def renderChange (e : EntryData) : String :=
  "- " ++ optStr e.summary ++
    (match e.pr_number with
     | some n => if n ≠ 0 then " ([#" ++ toString n ++ "](" ++ optStr e.pr_url ++ "))" else ""
     | none => "") ++
    (match e.details with
     | some d => if d ≠ "" then "\n  " ++ d else ""
     | none => "") ++ "\n"

/-- The clock value read by `datetime.now()` inside `format_as_markdown`:
`date` is `strftime("%Y-%m-%d")` and `time` the rest of the instant (unused
by the renderer). -/
structure Clock where
  date : String
  time : String
deriving Repr, DecidableEq

/-- The changelog dictionary handed to the renderer: `changelog_data.get("repo",
"")` and `changelog_data.get("changes", [])`. -/
structure ChangelogData where
  repo : String
  changes : List EntryData
deriving Repr, DecidableEq

/-- `ChangelogGenerator.format_as_markdown` (changelog_generator.py, lines
96-179).  `fmtDate` models the `datetime.fromisoformat(date).strftime("%B
%d, %Y")` call including its bare `except` fallback to the raw date — a pure
function of the date string.  The clock is read only for the `Generated on`
line, through its calendar date. -/
def format_as_markdown (fmtDate : String → String) (clock : Clock)
    (changelog_data : ChangelogData) (version : Option String) : String :=
  (match version with
   | some v => "# " ++ v ++ "\n\n"
   | none => "# Changelog for " ++ changelog_data.repo ++ "\n\n") ++
  "Generated on " ++ clock.date ++ "\n\n" ++
  String.join ((groupChanges changelog_data.changes).map fun g =>
    "## " ++ fmtDate g.1 ++ "\n\n" ++
      String.join (g.2.map fun tg =>
        "### " ++ typeHeader tg.1 ++ "\n\n" ++
          String.join (tg.2.map renderChange) ++ "\n"))

theorem perm_insertWith (r : α → α → Bool) (x : α) (l : List α) :
    (insertWith r x l).Perm (x :: l) := by
  induction l with
  | nil => exact List.Perm.refl _
  | cons y ys ih =>
    simp only [insertWith]
    split
    · exact List.Perm.refl _
    · exact (List.Perm.cons y ih).trans (List.Perm.swap x y ys)

theorem perm_sortWith (r : α → α → Bool) (l : List α) :
    (sortWith r l).Perm l := by
  induction l with
  | nil => exact List.Perm.refl _
  | cons x xs ih =>
    exact (perm_insertWith r x (sortWith r xs)).trans (List.Perm.cons x ih)

theorem mem_insertWith {r : α → α → Bool} {x a : α} {l : List α} :
    a ∈ insertWith r x l ↔ a = x ∨ a ∈ l := by
  constructor
  · intro h
    have := (perm_insertWith r x l).mem_iff.mp h
    simpa using this
  · intro h
    apply (perm_insertWith r x l).mem_iff.mpr
    simpa using h

theorem pairwise_insertWith {r : α → α → Bool}
    (htot : ∀ a b, r a b = true ∨ r b a = true)
    (htrans : ∀ a b c, r a b = true → r b c = true → r a c = true)
    (x : α) {l : List α} (hl : l.Pairwise fun a b => r a b = true) :
    (insertWith r x l).Pairwise fun a b => r a b = true := by
  induction l with
  | nil => simp [insertWith]
  | cons y ys ih =>
    simp only [insertWith]
    rcases List.pairwise_cons.mp hl with ⟨hy, hys⟩
    split
    · next hxy =>
      refine List.pairwise_cons.mpr ⟨?_, hl⟩
      intro b hb
      rcases List.mem_cons.mp hb with hb | hb
      · exact hb ▸ hxy
      · exact htrans x y b hxy (hy b hb)
    · next hxy =>
      refine List.pairwise_cons.mpr ⟨?_, ih hys⟩
      intro b hb
      rcases mem_insertWith.mp hb with hb | hb
      · subst hb
        rcases htot b y with h | h
        · exact absurd h hxy
        · exact h
      · exact hy b hb

theorem pairwise_sortWith {r : α → α → Bool}
    (htot : ∀ a b, r a b = true ∨ r b a = true)
    (htrans : ∀ a b c, r a b = true → r b c = true → r a c = true)
    (l : List α) :
    (sortWith r l).Pairwise fun a b => r a b = true := by
  induction l with
  | nil => simp [sortWith]
  | cons x xs ih => exact pairwise_insertWith htot htrans x ih

theorem groupByKey_flatMap_perm (key : α → String) (l : List α) :
    ((groupByKey key l).flatMap fun g => g.2).Perm l := by
  induction l using groupByKey.induct key with
  | case1 => simp [groupByKey]
  | case2 x xs ih =>
    rw [groupByKey]
    simp only [List.flatMap_cons]
    refine List.Perm.trans ?_
      (List.Perm.cons x (List.filter_append_perm (fun y => key y == key x) xs))
    exact List.Perm.cons x (List.Perm.append_left _ ih)

theorem groupByKey_mem_group (key : α → String) (l : List α) :
    ∀ g ∈ groupByKey key l, ∀ e ∈ g.2, key e = g.1 := by
  induction l using groupByKey.induct key with
  | case1 => simp [groupByKey]
  | case2 x xs ih =>
    rw [groupByKey]
    intro g hg e he
    rcases List.mem_cons.mp hg with hg | hg
    · subst hg
      rcases List.mem_cons.mp he with he | he
      · subst he; rfl
      · exact eq_of_beq (List.mem_filter.mp he).2
    · exact ih g hg e he

theorem groupByKey_keys_exists (key : α → String) (l : List α) :
    ∀ k ∈ (groupByKey key l).map Prod.fst, ∃ y ∈ l, key y = k := by
  induction l using groupByKey.induct key with
  | case1 => simp [groupByKey]
  | case2 x xs ih =>
    rw [groupByKey]
    intro k hk
    rcases List.mem_cons.mp hk with hk | hk
    · exact ⟨x, List.mem_cons_self x xs, hk.symm⟩
    · rcases ih k hk with ⟨y, hy, hky⟩
      exact ⟨y, List.mem_cons_of_mem x (List.mem_of_mem_filter hy), hky⟩

theorem groupByKey_keys_nodup (key : α → String) (l : List α) :
    ((groupByKey key l).map Prod.fst).Nodup := by
  induction l using groupByKey.induct key with
  | case1 => simp [groupByKey]
  | case2 x xs ih =>
    rw [groupByKey]
    simp only [List.map_cons, List.nodup_cons]
    refine ⟨?_, ih⟩
    intro hmem
    rcases groupByKey_keys_exists _ _ _ hmem with ⟨y, hy, hky⟩
    have := (List.mem_filter.mp hy).2
    rw [hky] at this
    simp at this

theorem find?_id_map (f : RepoRow → RepoRow) (hf : ∀ r, (f r).id = r.id)
    (l : List RepoRow) (x : String) :
    (l.map f).find? (fun r => r.id == x) = (l.find? (fun r => r.id == x)).map f := by
  have hp : ((fun r : RepoRow => r.id == x) ∘ f) = fun r : RepoRow => r.id == x := by
    funext r
    simp [Function.comp, hf]
  rw [List.find?_map, hp]

theorem getRepo_touchRepo (db : DB) (now rid rid2 : String) :
    getRepo (touchRepo db now rid) rid2 =
      (getRepo db rid2).map fun r =>
        if r.id == rid then { r with last_updated := now } else r := by
  unfold getRepo touchRepo
  exact find?_id_map _ (fun r => by split <;> rfl) _ _

theorem touchRepo_changelog_entries (db : DB) (now rid : String) :
    (touchRepo db now rid).changelog_entries = db.changelog_entries := rfl

theorem touchRepo_versions (db : DB) (now rid : String) :
    (touchRepo db now rid).versions = db.versions := rfl

/-- The in-place field update performed by the UPDATE branch of
`add_changelog_entry` (`pr_number` is not among the updated columns). -/
def updateRowFields (codec : LabelsCodec) (r : EntryRow) (e : EntryData) : EntryRow :=
  { r with
    pr_url := e.pr_url
    author := e.author
    date := e.date
    summary := e.summary
    details := e.details
    type := e.type
    labels := dumpLabels codec e.labels }

theorem add_entry_eval_none_pr (codec : LabelsCodec) (db : DB) (now newId rid date : String)
    (e : EntryData) (r : RepoRow) (hr : getRepo db rid = some r)
    (he : e.pr_number = none) :
    add_changelog_entry codec db now newId rid date e =
      ({ touchRepo db now rid with
          changelog_entries := db.changelog_entries ++ [rowOfEntry codec newId rid e] },
        Except.ok newId) := by
  simp only [add_changelog_entry, hr, he, touchRepo_changelog_entries]

theorem add_entry_eval_zero_pr (codec : LabelsCodec) (db : DB) (now newId rid date : String)
    (e : EntryData) (r : RepoRow) (hr : getRepo db rid = some r)
    (he : e.pr_number = some 0) :
    add_changelog_entry codec db now newId rid date e =
      ({ touchRepo db now rid with
          changelog_entries := db.changelog_entries ++ [rowOfEntry codec newId rid e] },
        Except.ok newId) := by
  simp only [add_changelog_entry, hr, he, touchRepo_changelog_entries]
  simp

theorem add_entry_eval_new_pr (codec : LabelsCodec) (db : DB) (now newId rid date : String)
    (e : EntryData) (r : RepoRow) (n : Int) (hr : getRepo db rid = some r)
    (he : e.pr_number = some n) (hn : n ≠ 0)
    (hfind : (db.changelog_entries.find? fun row =>
        row.repo_id == rid && row.pr_number == some n) = none) :
    add_changelog_entry codec db now newId rid date e =
      ({ touchRepo db now rid with
          changelog_entries := db.changelog_entries ++ [rowOfEntry codec newId rid e] },
        Except.ok newId) := by
  simp only [add_changelog_entry, hr, he, touchRepo_changelog_entries, hfind, if_pos hn]
  simp [hfind]

theorem add_entry_eval_existing_pr (codec : LabelsCodec) (db : DB)
    (now newId rid date : String) (e : EntryData) (r : RepoRow) (n : Int) (row0 : EntryRow)
    (hr : getRepo db rid = some r) (he : e.pr_number = some n) (hn : n ≠ 0)
    (hfind : (db.changelog_entries.find? fun row =>
        row.repo_id == rid && row.pr_number == some n) = some row0) :
    add_changelog_entry codec db now newId rid date e =
      ({ touchRepo db now rid with
          changelog_entries := db.changelog_entries.map fun row =>
            if row.id == row0.id then updateRowFields codec row e else row },
        Except.ok row0.id) := by
  simp only [add_changelog_entry, hr, he, touchRepo_changelog_entries, hfind, if_pos hn,
    updateRowFields]
  simp [hfind]

/-- A concrete label codec for concrete evaluations: its `loads` fails on
every string, modelling corrupt stored data. -/
def codec0 : LabelsCodec :=
  { dumps := fun _ => "x", loads := fun _ => none }

/-- A concrete registered repository row. -/
def repo0 : RepoRow :=
  { id := "r", name := "repo", url := none, current_version := none, last_updated := "t0" }

/-- A database holding exactly the repository `repo0` and nothing else. -/
def db0 : DB :=
  { repositories := [repo0] }

/-- A stored entry with `pr_number = 0` for repository `r`. -/
def rowz : EntryRow :=
  { id := "e0", repo_id := "r", pr_number := some 0, pr_url := none, author := none,
    date := some "2024-01-01", summary := some "old", details := none, type := none,
    labels := none }

/-- A database where a row with `(repo_id, pr_number) = (r, 0)` already
exists. -/
def dbz : DB :=
  { repositories := [repo0], changelog_entries := [rowz] }

/-- An entry payload with `pr_number = 0`. -/
def entz : EntryData :=
  { pr_number := some 0, summary := some "new" }

/-- C9: for every registered repository, `add_changelog_entry` with an entry
whose `pr_number` equals 0 always takes the insert branch — the duplicate
check is skipped because the guard `if pr_number:` tests truthiness — so a
new row with the supplied fresh id is appended, never an update, even when a
row with `(repo_id, 0)` already exists. -/
theorem claim9_pr_zero_never_deduplicated (codec : LabelsCodec) (db : DB)
    (now newId rid date : String) (e : EntryData) (r : RepoRow)
    (hr : getRepo db rid = some r) (he : e.pr_number = some 0) :
    (add_changelog_entry codec db now newId rid date e).2 = Except.ok newId ∧
    (add_changelog_entry codec db now newId rid date e).1.changelog_entries =
      db.changelog_entries ++ [rowOfEntry codec newId rid e] := by
  rw [add_entry_eval_zero_pr codec db now newId rid date e r hr he]
  exact ⟨rfl, rfl⟩

/-- C9 witness: in a store already holding a row for `(r, 0)`, adding an
entry with `pr_number = 0` appends a second row under the fresh id. -/
theorem claim9_pr_zero_never_deduplicated_witness :
    getRepo dbz "r" = some repo0 ∧ entz.pr_number = some 0 ∧
    ((add_changelog_entry codec0 dbz "t1" "id1" "r" "2024-01-02" entz).2 =
        Except.ok "id1" ∧
      (add_changelog_entry codec0 dbz "t1" "id1" "r" "2024-01-02" entz).1.changelog_entries =
        dbz.changelog_entries ++ [rowOfEntry codec0 "id1" "r" entz]) :=
  ⟨by decide, rfl,
    claim9_pr_zero_never_deduplicated codec0 dbz "t1" "id1" "r" "2024-01-02" entz repo0
      (by decide) rfl⟩

/-- An entry payload with `pr_number = 0` and summary `a`. -/
def entza : EntryData :=
  { pr_number := some 0, summary := some "a" }

/-- An entry payload with `pr_number = 0` and summary `b`. -/
def entzb : EntryData :=
  { pr_number := some 0, summary := some "b" }

/-- C1 counterexample: `pr_number = 0` is non-null, yet two `add_changelog_entry`
calls with `(repo_id, pr_number) = (r, 0)` and different summaries leave TWO
stored rows for that pair — the truthiness guard skips the duplicate check —
refuting the claim for the non-null value 0. -/
theorem claim1_counterexample :
    ((add_changelog_entry codec0
        (add_changelog_entry codec0 db0 "t1" "id1" "r" "d" entza).1
        "t2" "id2" "r" "d" entzb).1.changelog_entries.filter
      (fun row => row.repo_id == "r" && row.pr_number == some 0)).length = 2 := by
  decide


/-- C1 (amended): for every repository id and every entry whose `pr_number`
is non-null AND nonzero (truthy — the code guards the duplicate check with
`if pr_number:`), calling `add_changelog_entry` twice with the same
`(repo_id, pr_number)` but different summaries — starting from a store with
no row for that pair and a first id fresh for the store — leaves exactly one
stored row for the pair, that row reflects the second write, and the second
call returns the id created by the first call. -/
theorem claim1_upsert_truthy_pr_updates_in_place (codec : LabelsCodec) (db : DB)
    (now1 now2 id1 id2 rid d1 d2 : String) (e1 e2 : EntryData) (n : Int) (r : RepoRow)
    (hr : getRepo db rid = some r)
    (h1 : e1.pr_number = some n) (h2 : e2.pr_number = some n) (hn : n ≠ 0)
    (hnone : (db.changelog_entries.filter fun row =>
        row.repo_id == rid && row.pr_number == some n) = [])
    (hfresh : ∀ row ∈ db.changelog_entries, row.id ≠ id1) :
    ∃ db1 db2,
      add_changelog_entry codec db now1 id1 rid d1 e1 = (db1, Except.ok id1) ∧
      add_changelog_entry codec db1 now2 id2 rid d2 e2 = (db2, Except.ok id1) ∧
      (db2.changelog_entries.filter fun row =>
          row.repo_id == rid && row.pr_number == some n) =
        [updateRowFields codec (rowOfEntry codec id1 rid e1) e2] ∧
      (updateRowFields codec (rowOfEntry codec id1 rid e1) e2).summary = e2.summary := by
  have hfind1 : (db.changelog_entries.find? fun row =>
      row.repo_id == rid && row.pr_number == some n) = none := by
    rw [List.find?_eq_none]
    intro x hx hpx
    have hmem : x ∈ db.changelog_entries.filter fun row =>
        row.repo_id == rid && row.pr_number == some n :=
      List.mem_filter.mpr ⟨hx, hpx⟩
    rw [hnone] at hmem
    exact absurd hmem (List.not_mem_nil x)
  have step1 := add_entry_eval_new_pr codec db now1 id1 rid d1 e1 r n hr h1 hn hfind1
  have hr1 : getRepo
      { touchRepo db now1 rid with
        changelog_entries := db.changelog_entries ++ [rowOfEntry codec id1 rid e1] } rid =
      some (if r.id == rid then { r with last_updated := now1 } else r) := by
    show getRepo (touchRepo db now1 rid) rid = _
    rw [getRepo_touchRepo, hr]
    rfl
  have hp1 : ((rowOfEntry codec id1 rid e1).repo_id == rid &&
      (rowOfEntry codec id1 rid e1).pr_number == some n) = true := by
    simp [rowOfEntry, h1]
  have hfind2 : (({ touchRepo db now1 rid with
        changelog_entries := db.changelog_entries ++ [rowOfEntry codec id1 rid e1] } :
          DB).changelog_entries.find?
        fun row => row.repo_id == rid && row.pr_number == some n) =
      some (rowOfEntry codec id1 rid e1) := by
    show ((db.changelog_entries ++ [rowOfEntry codec id1 rid e1]).find? _) = _
    rw [List.find?_append, hfind1]
    simp [List.find?_cons, hp1]
  have step2 := add_entry_eval_existing_pr codec
    { touchRepo db now1 rid with
      changelog_entries := db.changelog_entries ++ [rowOfEntry codec id1 rid e1] }
    now2 id2 rid d2 e2 (if r.id == rid then { r with last_updated := now1 } else r) n
    (rowOfEntry codec id1 rid e1) hr1 h2 hn hfind2
  have hmapentries : (({ touchRepo db now1 rid with
        changelog_entries := db.changelog_entries ++ [rowOfEntry codec id1 rid e1] } :
          DB).changelog_entries.map
        fun row => if row.id == (rowOfEntry codec id1 rid e1).id
          then updateRowFields codec row e2 else row) =
      db.changelog_entries ++ [updateRowFields codec (rowOfEntry codec id1 rid e1) e2] := by
    show ((db.changelog_entries ++ [rowOfEntry codec id1 rid e1]).map _) = _
    rw [List.map_append]
    congr 1
    · conv_rhs => rw [← List.map_id db.changelog_entries]
      apply List.map_congr_left
      intro a ha
      have hne : ¬((a.id == (rowOfEntry codec id1 rid e1).id) = true) := by
        show ¬((a.id == id1) = true)
        simp only [beq_iff_eq]
        exact hfresh a ha
      simp only [id]
      rw [if_neg hne]
    · simp
  refine ⟨_,
    { touchRepo
        { touchRepo db now1 rid with
          changelog_entries := db.changelog_entries ++ [rowOfEntry codec id1 rid e1] }
        now2 rid with
      changelog_entries :=
        db.changelog_entries ++ [updateRowFields codec (rowOfEntry codec id1 rid e1) e2] },
    step1, ?_, ?_, rfl⟩
  · rw [step2, hmapentries]
    rfl
  · show ((db.changelog_entries ++
        [updateRowFields codec (rowOfEntry codec id1 rid e1) e2]).filter
          fun row => row.repo_id == rid && row.pr_number == some n) = _
    rw [List.filter_append, hnone]
    have hpu : (((updateRowFields codec (rowOfEntry codec id1 rid e1) e2).repo_id == rid) &&
        ((updateRowFields codec (rowOfEntry codec id1 rid e1) e2).pr_number == some n))
          = true := by
      simp [updateRowFields, rowOfEntry, h1]
    simp [List.filter_cons, hpu]

/-- An entry payload with truthy `pr_number = 1` and summary `a`. -/
def entpa : EntryData :=
  { pr_number := some 1, summary := some "a" }

/-- An entry payload with truthy `pr_number = 1` and summary `b`. -/
def entpb : EntryData :=
  { pr_number := some 1, summary := some "b" }

/-- C1 witness: the amended upsert law instantiated on a concrete store. -/
theorem claim1_upsert_truthy_pr_updates_in_place_witness :
    (getRepo db0 "r" = some repo0 ∧ entpa.pr_number = some 1 ∧
      entpb.pr_number = some 1 ∧ (1 : Int) ≠ 0 ∧
      (db0.changelog_entries.filter fun row =>
        row.repo_id == "r" && row.pr_number == some 1) = [] ∧
      (∀ row ∈ db0.changelog_entries, row.id ≠ "id1")) ∧
    (∃ db1 db2,
      add_changelog_entry codec0 db0 "t1" "id1" "r" "d1" entpa = (db1, Except.ok "id1") ∧
      add_changelog_entry codec0 db1 "t2" "id2" "r" "d2" entpb = (db2, Except.ok "id1") ∧
      (db2.changelog_entries.filter fun row =>
          row.repo_id == "r" && row.pr_number == some 1) =
        [updateRowFields codec0 (rowOfEntry codec0 "id1" "r" entpa) entpb] ∧
      (updateRowFields codec0 (rowOfEntry codec0 "id1" "r" entpa) entpb).summary =
        entpb.summary) :=
  ⟨⟨by decide, rfl, rfl, by decide, rfl, by simp [db0]⟩,
    claim1_upsert_truthy_pr_updates_in_place codec0 db0 "t1" "t2" "id1" "id2" "r" "d1" "d2"
      entpa entpb 1 repo0 (by decide) rfl rfl (by decide) rfl (by simp [db0])⟩

/-- C7: for every registered repository, two `add_changelog_entry` calls with
`pr_number = null` (under distinct fresh ids) append two distinct stored
rows — null-PR entries are never deduplicated. -/
theorem claim7_null_pr_always_appends (codec : LabelsCodec) (db : DB)
    (now1 now2 id1 id2 rid d1 d2 : String) (e1 e2 : EntryData) (r : RepoRow)
    (hr : getRepo db rid = some r)
    (h1 : e1.pr_number = none) (h2 : e2.pr_number = none) (hid : id1 ≠ id2) :
    ∃ db1 db2,
      add_changelog_entry codec db now1 id1 rid d1 e1 = (db1, Except.ok id1) ∧
      add_changelog_entry codec db1 now2 id2 rid d2 e2 = (db2, Except.ok id2) ∧
      db2.changelog_entries =
        db.changelog_entries ++
          [rowOfEntry codec id1 rid e1, rowOfEntry codec id2 rid e2] ∧
      rowOfEntry codec id1 rid e1 ≠ rowOfEntry codec id2 rid e2 := by
  have step1 := add_entry_eval_none_pr codec db now1 id1 rid d1 e1 r hr h1
  have hr1 : getRepo
      { touchRepo db now1 rid with
        changelog_entries := db.changelog_entries ++ [rowOfEntry codec id1 rid e1] } rid =
      some (if r.id == rid then { r with last_updated := now1 } else r) := by
    show getRepo (touchRepo db now1 rid) rid = _
    rw [getRepo_touchRepo, hr]
    rfl
  have step2 := add_entry_eval_none_pr codec
    { touchRepo db now1 rid with
      changelog_entries := db.changelog_entries ++ [rowOfEntry codec id1 rid e1] }
    now2 id2 rid d2 e2 (if r.id == rid then { r with last_updated := now1 } else r) hr1 h2
  refine ⟨_, _, step1, step2, ?_, ?_⟩
  · show (db.changelog_entries ++ [rowOfEntry codec id1 rid e1]) ++
        [rowOfEntry codec id2 rid e2] = _
    rw [List.append_assoc]
    rfl
  · intro hcontra
    have : (rowOfEntry codec id1 rid e1).id = (rowOfEntry codec id2 rid e2).id := by
      rw [hcontra]
    exact hid this

/-- C7 witness: two null-PR adds on a concrete store yield two distinct
rows. -/
theorem claim7_null_pr_always_appends_witness :
    (getRepo db0 "r" = some repo0 ∧
      ({ summary := some "a" : EntryData }).pr_number = none ∧
      ({ summary := some "b" : EntryData }).pr_number = none ∧
      "id1" ≠ "id2") ∧
    (∃ db1 db2,
      add_changelog_entry codec0 db0 "t1" "id1" "r" "d1"
          { summary := some "a" } = (db1, Except.ok "id1") ∧
      add_changelog_entry codec0 db1 "t2" "id2" "r" "d2"
          { summary := some "b" } = (db2, Except.ok "id2") ∧
      db2.changelog_entries =
        db0.changelog_entries ++
          [rowOfEntry codec0 "id1" "r" { summary := some "a" },
           rowOfEntry codec0 "id2" "r" { summary := some "b" }] ∧
      rowOfEntry codec0 "id1" "r" { summary := some "a" } ≠
        rowOfEntry codec0 "id2" "r" { summary := some "b" }) :=
  ⟨⟨by decide, rfl, rfl, by decide⟩,
    claim7_null_pr_always_appends codec0 db0 "t1" "t2" "id1" "id2" "r" "d1" "d2"
      { summary := some "a" } { summary := some "b" } repo0 (by decide) rfl rfl
      (by decide)⟩

theorem filter_of_filter_not (p : β → Bool) (l : List β) :
    ((l.filter fun x => !(p x)).filter p) = [] := by
  rw [List.filter_eq_nil_iff]
  intro a ha
  have h2 := (List.mem_filter.mp ha).2
  simp only [Bool.not_eq_true'] at h2
  simp [h2]

/-- C4 (amended): `delete_repository` removes every changelog entry, every
version, every version_entries row of the repository versions, and the
repository row itself; it is total (no error path, so an unknown id is a
silent no-op); a subsequent `get_changelog` for that id returns `none`
(not found) — not an empty collection, since the repository row itself is
gone. -/
theorem claim4_delete_cascades (codec : LabelsCodec) (db : DB) (t rid : String) :
    ((delete_repository db rid).changelog_entries.filter fun r => r.repo_id == rid) = [] ∧
    ((delete_repository db rid).versions.filter fun v => v.repo_id == rid) = [] ∧
    ((delete_repository db rid).repositories.filter fun r => r.id == rid) = [] ∧
    ((delete_repository db rid).version_entries.filter fun ve =>
        db.versions.any fun v => v.repo_id == rid && v.id == ve.version_id) = [] ∧
    get_changelog codec (delete_repository db rid) t rid = none := by
  refine ⟨filter_of_filter_not _ _, filter_of_filter_not _ _, filter_of_filter_not _ _,
    filter_of_filter_not _ _, ?_⟩
  have hnorepo : getRepo (delete_repository db rid) rid = none := by
    rw [getRepo, List.find?_eq_none]
    intro x hx
    have h2 := (List.mem_filter.mp hx).2
    simp only [Bool.not_eq_true'] at h2
    simp [h2]
  simp [get_changelog, hnorepo]

/-- A stored entry of repository `r`, present before the deletion used in the
C4 counterexample. -/
def rowc4 : EntryRow :=
  { id := "e4", repo_id := "r", pr_number := some 5, pr_url := none, author := none,
    date := some "2024-01-01", summary := some "s", details := none, type := none,
    labels := none }

/-- A database with repository `r` and one stored entry. -/
def dbc4 : DB :=
  { repositories := [repo0], changelog_entries := [rowc4] }

/-- C4 counterexample: after `delete_repository`, `get_changelog` for the
deleted id returns `None` (the repository row is gone), not an empty
collection of entries as the claim states. -/
theorem claim4_counterexample :
    ¬ ∃ cl : Changelog,
      get_changelog codec0 (delete_repository dbc4 "r") "t9" "r" = some cl := by
  intro hcl
  rcases hcl with ⟨cl, hcl⟩
  have hnone : get_changelog codec0 (delete_repository dbc4 "r") "t9" "r" = none := by
    decide
  rw [hnone] at hcl
  exact Option.noConfusion hcl

/-- C5: `add_version` fails with the not-found error when the repository id
is unknown (state unchanged), fails with the duplicate error when
`(repo_id, version)` already exists (state unchanged), and on success sets
the repository current_version to the new version; calling it twice with the
same version makes the second call fail with the duplicate error while the
standing state — including current_version set by the first call — is
untouched. -/
theorem claim5_add_version_errors_and_current_version :
    (∀ (db : DB) (now nid rid v : String) (rd ds : Option String) (br : Bool),
      getRepo db rid = none →
      add_version db now nid rid v rd ds br = (db, Except.error StorageError.notFound)) ∧
    (∀ (db : DB) (now1 nid1 now2 nid2 rid v : String) (rd1 ds1 : Option String) (br1 : Bool)
      (rd2 ds2 : Option String) (br2 : Bool) (r : RepoRow),
      getRepo db rid = some r →
      (db.versions.find? fun w => w.repo_id == rid && w.version == v) = none →
      ∃ db1,
        add_version db now1 nid1 rid v rd1 ds1 br1 = (db1, Except.ok nid1) ∧
        (getRepo db1 rid).map (fun x => x.current_version) = some (some v) ∧
        add_version db1 now2 nid2 rid v rd2 ds2 br2 =
          (db1, Except.error StorageError.duplicate)) := by
  constructor
  · intro db now nid rid v rd ds br h
    simp [add_version, h]
  · intro db now1 nid1 now2 nid2 rid v rd1 ds1 br1 rd2 ds2 br2 r hr hv
    have step1 : add_version db now1 nid1 rid v rd1 ds1 br1 =
        ({ db with
            versions := db.versions ++
              [versionRowOf nid1 rid v (defaultReleaseDate now1 rd1) ds1 br1]
            repositories := db.repositories.map fun x =>
              if x.id == rid then
                { x with current_version := some v, last_updated := now1 }
              else x },
          Except.ok nid1) := by
      simp only [add_version, hr, hv]
    have hfr : (r.id == rid) = true := by
      have h :=
        List.find?_some (show db.repositories.find? (fun x => x.id == rid) = some r from hr)
      exact h
    have hget1 : getRepo
        { db with
            versions := db.versions ++
              [versionRowOf nid1 rid v (defaultReleaseDate now1 rd1) ds1 br1]
            repositories := db.repositories.map fun x =>
              if x.id == rid then
                { x with current_version := some v, last_updated := now1 }
              else x } rid =
        some { r with current_version := some v, last_updated := now1 } := by
      show (db.repositories.map _).find? _ = _
      rw [find?_id_map _ (fun x => by split <;> rfl),
        show List.find? (fun x : RepoRow => x.id == rid) db.repositories = some r from hr]
      simp [hfr]
      intro h
      exact absurd (eq_of_beq hfr) h
    have hvrow : ((versionRowOf nid1 rid v (defaultReleaseDate now1 rd1) ds1 br1).repo_id
        == rid &&
        (versionRowOf nid1 rid v (defaultReleaseDate now1 rd1) ds1 br1).version == v)
          = true := by
      simp [versionRowOf]
    refine ⟨_, step1, ?_, ?_⟩
    · rw [hget1]
      rfl
    · simp only [add_version, hget1]
      show (match (db.versions ++
          [versionRowOf nid1 rid v (defaultReleaseDate now1 rd1) ds1 br1]).find?
            (fun w => w.repo_id == rid && w.version == v) with
        | some _ => _
        | none => _) = _
      rw [List.find?_append, hv]
      simp [List.find?_cons, hvrow]

/-- C5 witness: the version law instantiated on a concrete store. -/
theorem claim5_add_version_errors_and_current_version_witness :
    (getRepo db0 "nope" = none ∧
      add_version db0 "tX" "vidX" "nope" "v1.0.0" none none false =
        (db0, Except.error StorageError.notFound)) ∧
    (getRepo db0 "r" = some repo0 ∧
      (db0.versions.find? fun w => w.repo_id == "r" && w.version == "v1.0.0") = none ∧
      ∃ db1,
        add_version db0 "tA" "vid1" "r" "v1.0.0" none none false =
          (db1, Except.ok "vid1") ∧
        (getRepo db1 "r").map (fun x => x.current_version) = some (some "v1.0.0") ∧
        add_version db1 "tB" "vid2" "r" "v1.0.0" none none false =
          (db1, Except.error StorageError.duplicate)) :=
  ⟨⟨by decide,
      claim5_add_version_errors_and_current_version.1 db0 "tX" "vidX" "nope" "v1.0.0"
        none none false (by decide)⟩,
    ⟨by decide, rfl,
      claim5_add_version_errors_and_current_version.2 db0 "tA" "vid1" "tB" "vid2" "r"
        "v1.0.0" none none false none none false repo0 (by decide) rfl⟩⟩

/-- C10: `replaceAll` (`save_changelog`) performs no validation of the
repository id and has no error path: even for a repo_id absent from the
repositories table it deletes any existing entries for that id and inserts
the given entries unconditionally, while `get_changelog` for that unknown id
still returns `none` — the inserted entries are unreachable through it. -/
theorem claim10_save_changelog_unknown_repo (codec : LabelsCodec) (db : DB)
    (now : String) (fresh : Nat → String) (rid t : String) (changes : List EntryData)
    (h : getRepo db rid = none) :
    (save_changelog codec db now fresh rid changes).changelog_entries =
      db.changelog_entries.filter (fun r => !(r.repo_id == rid)) ++
        changes.enum.map (fun p => rowOfEntry codec (fresh p.1) rid p.2) ∧
    ((save_changelog codec db now fresh rid changes).changelog_entries.filter
        fun r => r.repo_id == rid) =
      changes.enum.map (fun p => rowOfEntry codec (fresh p.1) rid p.2) ∧
    get_changelog codec (save_changelog codec db now fresh rid changes) t rid = none := by
  refine ⟨rfl, ?_, ?_⟩
  · show ((db.changelog_entries.filter (fun r => !(r.repo_id == rid)) ++
        changes.enum.map (fun p => rowOfEntry codec (fresh p.1) rid p.2)).filter
          fun r => r.repo_id == rid) = _
    rw [List.filter_append, filter_of_filter_not]
    rw [List.nil_append, List.filter_eq_self]
    intro a ha
    rcases List.mem_map.mp ha with ⟨p, _, hp⟩
    rw [← hp]
    simp [rowOfEntry]
  · have hnorepo : getRepo (save_changelog codec db now fresh rid changes) rid = none := by
      show getRepo (touchRepo db now rid) rid = none
      rw [getRepo_touchRepo, h]
      rfl
    simp [get_changelog, hnorepo]

/-- A stored entry belonging to the unregistered repository id `zzz`. -/
def strayRow : EntryRow :=
  { id := "e9", repo_id := "zzz", pr_number := none, pr_url := none, author := none,
    date := some "2024-01-01", summary := some "stray", details := none, type := none,
    labels := none }

/-- A database whose entries table holds a row for the unregistered id
`zzz`. -/
def dbc10 : DB :=
  { repositories := [repo0], changelog_entries := [strayRow] }

/-- C10 witness: replacing the changelog of the unregistered id `zzz`. -/
theorem claim10_save_changelog_unknown_repo_witness :
    getRepo dbc10 "zzz" = none ∧
    ((save_changelog codec0 dbc10 "t1" (fun i => toString i) "zzz"
        [{ summary := some "s" }]).changelog_entries =
      dbc10.changelog_entries.filter (fun r => !(r.repo_id == "zzz")) ++
        [({ summary := some "s" } : EntryData)].enum.map
          (fun p => rowOfEntry codec0 (toString p.1) "zzz" p.2) ∧
    ((save_changelog codec0 dbc10 "t1" (fun i => toString i) "zzz"
        [{ summary := some "s" }]).changelog_entries.filter
        fun r => r.repo_id == "zzz") =
      [({ summary := some "s" } : EntryData)].enum.map
        (fun p => rowOfEntry codec0 (toString p.1) "zzz" p.2) ∧
    get_changelog codec0
      (save_changelog codec0 dbc10 "t1" (fun i => toString i) "zzz"
        [{ summary := some "s" }]) "t2" "zzz" = none) :=
  ⟨by decide,
    claim10_save_changelog_unknown_repo codec0 dbc10 "t1" (fun i => toString i) "zzz" "t2"
      [{ summary := some "s" }] (by decide)⟩

/-- C8: when a stored labels column fails to deserialize (`json.loads`
raises), both read operations return the entry with `labels = []` instead of
propagating the error — `get_changelog` still lists the entry, and
`get_changelog_entry` still returns it. -/
theorem claim8_corrupt_labels_read_as_empty_list (codec : LabelsCodec) (s : String)
    (hs : s ≠ "") (hload : codec.loads s = none) :
    (∀ (db : DB) (t rid : String) (row : EntryRow) (r0 : RepoRow),
      getRepo db rid = some r0 → row ∈ db.changelog_entries → row.repo_id = rid →
      row.labels = some s →
      ∃ cl, get_changelog codec db t rid = some cl ∧
        readEntry codec row ∈ cl.changes ∧ (readEntry codec row).labels = []) ∧
    (∀ (db : DB) (rid : String) (pr : Int) (row : EntryRow),
      (db.changelog_entries.find? fun x =>
        x.repo_id == rid && x.pr_number == some pr) = some row →
      row.labels = some s →
      get_changelog_entry codec db rid pr = some (readEntry codec row) ∧
        (readEntry codec row).labels = []) := by
  have hlab : ∀ row : EntryRow, row.labels = some s → (readEntry codec row).labels = [] := by
    intro row hrl
    show readLabels codec row.labels = []
    rw [hrl]
    simp [readLabels, hs, hload]
  constructor
  · intro db t rid row r0 hr hmem hrid hrl
    have hcl : get_changelog codec db t rid =
        some { repo := rid, generated_at := t,
               changes := (sortRowsByDateDesc (db.changelog_entries.filter
                 fun x => x.repo_id == rid)).map (readEntry codec) } := by
      simp [get_changelog, hr]
    refine ⟨_, hcl, ?_, hlab row hrl⟩
    apply List.mem_map_of_mem
    have hmemf : row ∈ db.changelog_entries.filter fun x => x.repo_id == rid :=
      List.mem_filter.mpr ⟨hmem, by simp [hrid]⟩
    exact ((perm_sortWith _ _).mem_iff).mpr hmemf
  · intro db rid pr row hfind hrl
    refine ⟨?_, hlab row hrl⟩
    simp [get_changelog_entry, hfind]

/-- A stored entry of repository `r` whose labels column holds text that is
not valid serialized data. -/
def rowc8 : EntryRow :=
  { id := "e8", repo_id := "r", pr_number := some 7, pr_url := none, author := none,
    date := some "2024-02-02", summary := some "s", details := none, type := none,
    labels := some "corrupt" }

/-- A database with repository `r` and the corrupt-labels entry. -/
def dbc8 : DB :=
  { repositories := [repo0], changelog_entries := [rowc8] }

/-- C8 witness: the lenient-read law instantiated on a concrete corrupt
store. -/
theorem claim8_corrupt_labels_read_as_empty_list_witness :
    ("corrupt" ≠ "" ∧ codec0.loads "corrupt" = none ∧ rowc8.labels = some "corrupt" ∧
      getRepo dbc8 "r" = some repo0 ∧ rowc8 ∈ dbc8.changelog_entries ∧
      rowc8.repo_id = "r" ∧
      (dbc8.changelog_entries.find? fun x =>
        x.repo_id == "r" && x.pr_number == some 7) = some rowc8) ∧
    (∃ cl, get_changelog codec0 dbc8 "t3" "r" = some cl ∧
      readEntry codec0 rowc8 ∈ cl.changes ∧ (readEntry codec0 rowc8).labels = []) ∧
    (get_changelog_entry codec0 dbc8 "r" 7 = some (readEntry codec0 rowc8) ∧
      (readEntry codec0 rowc8).labels = []) :=
  ⟨⟨by decide, rfl, rfl, by decide, by decide, rfl, by decide⟩,
    (claim8_corrupt_labels_read_as_empty_list codec0 "corrupt" (by decide) rfl).1
      dbc8 "t3" "r" rowc8 repo0 (by decide) (by decide) rfl rfl,
    (claim8_corrupt_labels_read_as_empty_list codec0 "corrupt" (by decide) rfl).2
      dbc8 "r" 7 rowc8 (by decide) rfl⟩

/-- C3 (amended): on a response with no parseable JSON, the generator never
raises and falls back to a structured record with `type = "other"` and
`summary` the stripped first 100 characters; `details` is the stripped next
at-most-250 characters ONLY when a candidate JSON substring (from the first
opening to past the last closing brace) exists but fails to parse — when no
candidate substring exists at all, `details` is the empty string. -/
theorem claim3_no_json_fallback (tryParse : String → Option GenEntry) (response : String) :
    (hasJsonCandidate response = false →
      generate_changelog_entry tryParse response =
        { summary := (response.take 100).trim, details := "", type := "other" }) ∧
    (hasJsonCandidate response = true →
      tryParse (jsonCandidate response) = none →
      generate_changelog_entry tryParse response =
        { summary := (response.take 100).trim
          details :=
            if 100 < response.length then ((response.drop 100).take 250).trim else ""
          type := "other" }) := by
  constructor
  · intro h
    simp [generate_changelog_entry, h]
  · intro h hp
    simp [generate_changelog_entry, h, hp]

set_option maxRecDepth 100000

/-- A 150-character plain-text LLM response with no brace anywhere. -/
def respA : String :=
  String.mk (List.replicate 150 'a')

/-- An LLM response that does contain a candidate JSON substring, which fails
to parse. -/
def respB : String :=
  "text \x7b bad \x7d tail"

/-- C3 counterexample: on the 150-character brace-free response, the code
returns `details = ""`, while the claim demands the next at-most-250
characters (here 50 non-empty characters) — so `details` differs from the
claimed value. -/
theorem claim3_counterexample :
    hasJsonCandidate respA = false ∧
    (generate_changelog_entry (fun _ => (none : Option GenEntry)) respA).details = "" ∧
    (respA.drop 100).take 250 ≠ "" ∧
    (generate_changelog_entry (fun _ => (none : Option GenEntry)) respA).details ≠
      (respA.drop 100).take 250 := by
  refine ⟨by decide, by decide, by decide, by decide⟩

/-- C3 witness: both fallback branches on concrete responses. -/
theorem claim3_no_json_fallback_witness :
    (hasJsonCandidate respA = false ∧
      generate_changelog_entry (fun _ => (none : Option GenEntry)) respA =
        { summary := (respA.take 100).trim, details := "", type := "other" }) ∧
    (hasJsonCandidate respB = true ∧
      (fun _ : String => (none : Option GenEntry)) (jsonCandidate respB) = none ∧
      generate_changelog_entry (fun _ => (none : Option GenEntry)) respB =
        { summary := (respB.take 100).trim
          details := if 100 < respB.length then ((respB.drop 100).take 250).trim else ""
          type := "other" }) :=
  ⟨⟨by decide,
      (claim3_no_json_fallback (fun _ => (none : Option GenEntry)) respA).1 (by decide)⟩,
    ⟨by decide, rfl,
      (claim3_no_json_fallback (fun _ => (none : Option GenEntry)) respB).2 (by decide)
        rfl⟩⟩

/-- The identity date-header formatter, a concrete instance of the
`fromisoformat`/`strftime` parameter. -/
def fmtDate0 : String → String := fun d => d

/-- A concrete changelog payload for the renderer. -/
def cdata0 : ChangelogData :=
  { repo := "acme", changes := [] }

/-- C2 counterexample: two invocations of `format_as_markdown` on the very
same changelog data and version label produce different bytes when the
current calendar date differs — the `Generated on` line embeds
`datetime.now()`, so the output is not a function of the inputs alone. -/
theorem claim2_counterexample :
    format_as_markdown fmtDate0 { date := "2024-01-01", time := "08:00:00" } cdata0 none ≠
      format_as_markdown fmtDate0 { date := "2024-01-02", time := "08:00:00" } cdata0 none := by
  simp only [format_as_markdown, groupChanges, cdata0, groupByKey, sortWith, List.map_nil,
    String.join]
  decide

/-- C2 (amended): `format_as_markdown` is side-effect-free and deterministic
given its inputs AND the current calendar date: two invocations on the same
changelog data and version label, at clock instants sharing the same
calendar date (time-of-day may differ), produce byte-identical markdown. -/
theorem claim2_render_deterministic_given_date (fmtDate : String → String)
    (c1 c2 : Clock) (data : ChangelogData) (version : Option String)
    (h : c1.date = c2.date) :
    format_as_markdown fmtDate c1 data version =
      format_as_markdown fmtDate c2 data version := by
  unfold format_as_markdown
  rw [h]

/-- C2 witness: same calendar date, different times of day, identical
output. -/
theorem claim2_render_deterministic_given_date_witness :
    ({ date := "2024-03-03", time := "08:15:00" } : Clock).date =
      ({ date := "2024-03-03", time := "21:45:09" } : Clock).date ∧
    format_as_markdown fmtDate0 { date := "2024-03-03", time := "08:15:00" } cdata0 none =
      format_as_markdown fmtDate0 { date := "2024-03-03", time := "21:45:09" } cdata0 none :=
  ⟨rfl,
    claim2_render_deterministic_given_date fmtDate0
      { date := "2024-03-03", time := "08:15:00" }
      { date := "2024-03-03", time := "21:45:09" } cdata0 none rfl⟩

/-- C6: the grouping pipeline of the markdown renderer places every input
entry in exactly one (date, type) bucket and orders the date buckets
strictly descending: the concatenation of all buckets is a permutation of
the input, every entry sits in the bucket keyed by its own calendar date and
type, the date keys are pairwise strictly descending (hence pairwise
distinct), and within each date the type keys are pairwise distinct. -/
theorem claim6_grouping_partition_and_descending_dates (changes : List EntryData) :
    (((groupChanges changes).flatMap fun g => g.2.flatMap fun tg => tg.2).Perm changes) ∧
    ((groupChanges changes).map Prod.fst).Pairwise (fun a b => b < a) ∧
    (∀ g ∈ groupChanges changes, ∀ tg ∈ g.2, ∀ e ∈ tg.2,
      dateKey e = g.1 ∧ typeKey e = tg.1) ∧
    (∀ g ∈ groupChanges changes, (g.2.map Prod.fst).Nodup) := by
  have hS : groupChanges changes =
      (sortWith (fun a b => decide (b.1 ≤ a.1)) (groupByKey dateKey changes)).map
        (fun g => (g.1, groupByKey typeKey g.2)) := rfl
  have hperm : (sortWith (fun a b : String × List EntryData => decide (b.1 ≤ a.1))
      (groupByKey dateKey changes)).Perm (groupByKey dateKey changes) :=
    perm_sortWith _ _
  refine ⟨?_, ?_, ?_, ?_⟩
  · rw [hS, List.flatMap_map]
    have h1 : (sortWith (fun a b : String × List EntryData => decide (b.1 ≤ a.1))
        (groupByKey dateKey changes)).flatMap
          (fun a => (a.1, groupByKey typeKey a.2).2.flatMap fun tg => tg.2) =
        (sortWith (fun a b : String × List EntryData => decide (b.1 ≤ a.1))
          (groupByKey dateKey changes)).flatMap
            (fun a => (groupByKey typeKey a.2).flatMap fun tg => tg.2) := rfl
    rw [h1]
    have h2 := List.Perm.flatMap_left
      (sortWith (fun a b : String × List EntryData => decide (b.1 ≤ a.1))
        (groupByKey dateKey changes))
      (f := fun a : String × List EntryData =>
        (groupByKey typeKey a.2).flatMap fun tg => tg.2)
      (g := fun a : String × List EntryData => a.2)
      (fun a _ => groupByKey_flatMap_perm typeKey a.2)
    refine h2.trans ?_
    refine (hperm.flatMap_right (fun a => a.2)).trans ?_
    exact groupByKey_flatMap_perm dateKey changes
  · have hmapfst : (groupChanges changes).map Prod.fst =
        (sortWith (fun a b : String × List EntryData => decide (b.1 ≤ a.1))
          (groupByKey dateKey changes)).map Prod.fst := by
      rw [hS, List.map_map]
      rfl
    rw [hmapfst]
    have htot : ∀ a b : String × List EntryData,
        decide (b.1 ≤ a.1) = true ∨ decide (a.1 ≤ b.1) = true := by
      intro a b
      rcases le_total b.1 a.1 with h | h
      · exact Or.inl (decide_eq_true h)
      · exact Or.inr (decide_eq_true h)
    have htrans : ∀ a b c : String × List EntryData,
        decide (b.1 ≤ a.1) = true → decide (c.1 ≤ b.1) = true →
          decide (c.1 ≤ a.1) = true := by
      intro a b c h1 h2
      exact decide_eq_true (le_trans (of_decide_eq_true h2) (of_decide_eq_true h1))
    have hle : (sortWith (fun a b : String × List EntryData => decide (b.1 ≤ a.1))
        (groupByKey dateKey changes)).Pairwise (fun a b => b.1 ≤ a.1) :=
      (pairwise_sortWith htot htrans _).imp (fun h => of_decide_eq_true h)
    have hlekeys : ((sortWith (fun a b : String × List EntryData => decide (b.1 ≤ a.1))
        (groupByKey dateKey changes)).map Prod.fst).Pairwise (fun a b => b ≤ a) :=
      (List.pairwise_map).mpr hle
    have hnodup : ((sortWith (fun a b : String × List EntryData => decide (b.1 ≤ a.1))
        (groupByKey dateKey changes)).map Prod.fst).Nodup := by
      have hpm : ((sortWith (fun a b : String × List EntryData => decide (b.1 ≤ a.1))
          (groupByKey dateKey changes)).map Prod.fst).Perm
            ((groupByKey dateKey changes).map Prod.fst) := hperm.map Prod.fst
      exact hpm.nodup_iff.mpr (groupByKey_keys_nodup dateKey changes)
    have hand := List.Pairwise.and hlekeys hnodup
    exact hand.imp (fun h => lt_of_le_of_ne h.1 (Ne.symm h.2))
  · intro g hg tg htg e he
    rw [hS] at hg
    rcases List.mem_map.mp hg with ⟨p, hpS, hpT⟩
    have hpB : p ∈ groupByKey dateKey changes := hperm.mem_iff.mp hpS
    subst hpT
    constructor
    · have hetg : e ∈ (groupByKey typeKey p.2).flatMap fun x => x.2 :=
        List.mem_flatMap.mpr ⟨tg, htg, he⟩
      have hep : e ∈ p.2 := (groupByKey_flatMap_perm typeKey p.2).mem_iff.mp hetg
      exact groupByKey_mem_group dateKey changes p hpB e hep
    · exact groupByKey_mem_group typeKey p.2 tg htg e he
  · intro g hg
    rw [hS] at hg
    rcases List.mem_map.mp hg with ⟨p, _, hpT⟩
    subst hpT
    exact groupByKey_keys_nodup typeKey p.2
